import Mathlib

/-!
Verification development for the Nbypass UID dashboard server.

We give a shallow embedding of the UID lifecycle core: the data model
(users with credit balances, UID records, activity log), the storage
operations from src/server/storage.ts, the external bypass client from
src/server/api-client.ts (createUID hour-to-day conversion) and the
rename composite from the fuller client variant, the session route
handlers from src/server/routes.ts, and the API-key handlers from
src/server/api-handler.ts.  External HTTP calls are modelled by an
oracle function from calls to results; each handler returns its
response, the new store state, and the list of external calls issued.
Money is modelled in integer cents: every credit amount the server
handles is an exact two-decimal dollar value (tier prices, toFixed(2)
balances), and n cents stands for the dollar value n / 100.  Timestamps
are integer milliseconds since the epoch (server clock taken as UTC).
-/

namespace Nbypass

/-- A user row (users collection): id, owner flag, credit balance in
cents.  Fields not used by the UID lifecycle (password, isActive,
timestamps) are omitted. -/
structure User where
  id : String
  username : String
  isOwner : Bool
  credits : Int
  deriving Repr, DecidableEq

/-- A UID record (uids collection), as written by MongoDBStorage.createUid
and the api-handler: owning user, optional creating API key, the UID
string, duration in hours, cost charged, lifecycle status string,
timestamps in ms. -/
structure UidRec where
  id : String
  userId : String
  apiKeyId : Option String
  uidValue : String
  duration : Int
  cost : Int
  status : String
  createdAt : Int
  expiresAt : Int
  deriving Repr, DecidableEq

/-- An activity log entry (activity_logs collection): actor id, action
tag, free-text details. -/
structure ActivityEntry where
  userId : String
  action : String
  details : String
  deriving Repr, DecidableEq

/-- The local store state: users, UID records, activity log. -/
structure AppState where
  users : List User
  uids : List UidRec
  activity : List ActivityEntry
  deriving Repr, DecidableEq

/-! Storage operations, from src/server/storage.ts (MongoDBStorage). -/

/-- storage.getUser: find a user by id. -/
def getUser (st : AppState) (id : String) : Option User :=
  st.users.find? (fun u => u.id == id)

/-- storage.getUid: find a UID record by id. -/
def getUid (st : AppState) (uidId : String) : Option UidRec :=
  st.uids.find? (fun u => u.id == uidId)

/-- storage.getUserUids: all UID records of one user. -/
def getUserUids (st : AppState) (userId : String) : List UidRec :=
  st.uids.filter (fun u => u.userId == userId)

/-- storage.updateUserCredits: overwrite the credit balance of a user. -/
def updateUserCredits (st : AppState) (userId : String) (newCredits : Int) : AppState :=
  { st with users := st.users.map (fun u =>
      if u.id == userId then { u with credits := newCredits } else u) }

/-- storage.createUid: insert a new UID record. -/
def createUid (st : AppState) (r : UidRec) : AppState :=
  { st with uids := st.uids ++ [r] }

/-- storage.deleteUid: remove a UID record by id (hard delete,
findByIdAndDelete). -/
def deleteUid (st : AppState) (uidId : String) : AppState :=
  { st with uids := st.uids.filter (fun u => u.id != uidId) }

/-- storage.updateUid: set the status field of a UID record. -/
def updateUid (st : AppState) (uidId : String) (status : String) : AppState :=
  { st with uids := st.uids.map (fun u =>
      if u.id == uidId then { u with status := status } else u) }

/-- storage.updateUidValue: set the uidValue field of a UID record. -/
def updateUidValue (st : AppState) (uidId : String) (newUidValue : String) : AppState :=
  { st with uids := st.uids.map (fun u =>
      if u.id == uidId then { u with uidValue := newUidValue } else u) }

/-- storage.logActivity: append one activity entry. -/
def logActivity (st : AppState) (e : ActivityEntry) : AppState :=
  { st with activity := st.activity ++ [e] }

/-! External bypass client, from src/server/api-client.ts and the
createUIDFree / updateUID variant cited for the rename path. -/

/-- The structured error thrown by the client (UIDBypassError). -/
structure UIDBypassError where
  message : String
  deriving Repr, DecidableEq

/-- One outgoing request to the external bypass service, identified by
its action and parameters. -/
inductive ExtCall where
  | addUid (uid : String) (planId : Int) (region : String)
  | addUidFree (uid : String) (region : String)
  | removeUid (uid : String)
  | renewUid (uid : String) (days : Int)
  | listUids
  deriving Repr, DecidableEq

/-- The external service, modelled as an oracle mapping each call to
success or a UIDBypassError. -/
def ExtOracle : Type := ExtCall → Except UIDBypassError Unit

/-- UIDBypassClient.createUID converts the requested duration from hours
to a plan id in days: Math.ceil(parseInt(duration) / 24).  The ceiling
is written as the negated floor division of the negation so that it
computes by kernel reduction; hoursToPlanDays_eq_ceil proves it equal
to the mathematical ceiling of durationHours / 24. -/
def hoursToPlanDays (durationHours : Int) : Int :=
  -(-durationHours / 24)

/-- The request UIDBypassClient.createUID issues: action add_uid_api with
the hour-to-day converted plan id and region fixed to PK. -/
def clientCreateUIDCall (uid : String) (durationHours : Int) : ExtCall :=
  ExtCall.addUid uid (hoursToPlanDays durationHours) "PK"

/-- UIDBypassClient.deleteUID: action remove_uid_api. -/
def clientDeleteUIDCall (uid : String) : ExtCall :=
  ExtCall.removeUid uid

/-- UIDBypassClient.createUIDFree: action add_uid_free_api, region
defaulting to PK. -/
def clientCreateUIDFreeCall (uid : String) : ExtCall :=
  ExtCall.addUidFree uid "PK"

/-- UIDBypassClient.updateUID: the composite rename — first deleteUID on
the old value; only if that succeeds, createUIDFree on the new value.
Returns the overall result and the list of calls actually issued, in
order. -/
def clientUpdateUID (ext : ExtOracle) (oldUid newUid : String) :
    Except UIDBypassError Unit × List ExtCall :=
  match ext (clientDeleteUIDCall oldUid) with
  | Except.error e => (Except.error e, [clientDeleteUIDCall oldUid])
  | Except.ok _ =>
      (ext (clientCreateUIDFreeCall newUid),
       [clientDeleteUIDCall oldUid, clientCreateUIDFreeCall newUid])

/-! Session routes, from src/server/routes.ts. -/

/-- The resolved session of a dashboard caller: user id and owner flag
(req.session.userId, req.session.isOwner). -/
structure Session where
  userId : String
  isOwner : Bool
  deriving Repr, DecidableEq

/-- The JSON body of POST /api/uids as sent by a client.  clientCost
models any extra cost field a client may include (in cents);
insertUidSchema.pick keeps only userId, uidValue and duration, so it is
discarded by parsing. -/
structure CreateUidRequest where
  userId : String
  uidValue : String
  duration : Int
  clientCost : Option Int
  deriving Repr, DecidableEq

/-- insertUidSchema.parse: userId, uidValue (6 to 12 characters),
positive duration; all other fields of the body are stripped. -/
def parseInsertUid (r : CreateUidRequest) : Option (String × String × Int) :=
  if 6 ≤ r.uidValue.length ∧ r.uidValue.length ≤ 12 ∧ 0 < r.duration then
    some (r.userId, r.uidValue, r.duration)
  else
    none

/-- updateUidValueSchema.parse: newUidValue must be 6 to 12 characters. -/
def parseUpdateUidValue (newUidValue : String) : Option String :=
  if 6 ≤ newUidValue.length ∧ newUidValue.length ≤ 12 then
    some newUidValue
  else
    none

/-- The fixed server-side pricing table of POST /api/uids
(pricingTiers): duration in hours to price in cents (0.50, 1.30, 2.33,
3.50, 5.20 dollars).  A duration that is not a key yields none (in the
source, an undefined lookup caught by the falsiness check on cost). -/
def pricingTiers (duration : Int) : Option Int :=
  if duration = 24 then some 50
  else if duration = 72 then some 130
  else if duration = 168 then some 233
  else if duration = 336 then some 350
  else if duration = 720 then some 520
  else none

/-- Result of a handler: HTTP-level response, the store state after the
request, and the external calls issued, in order. -/
structure HandlerOut (R : Type) where
  resp : R
  state : AppState
  extCalls : List ExtCall
  deriving Repr, DecidableEq

/-- Responses of POST /api/uids, by branch of the source handler. -/
inductive CreateResp where
  /-- 200: the created record and the new balance, in cents. -/
  | success (uid : UidRec) (newCredits : Int)
  /-- 400 from schema parsing (outer catch). -/
  | badRequest (msg : String)
  /-- 403 ownership rejection. -/
  | forbidden (msg : String)
  /-- 400 Invalid duration selected. -/
  | invalidDuration
  /-- 404 User not found. -/
  | userNotFound
  /-- 400 Insufficient credits. -/
  | insufficientCredits
  /-- 400 API Error from the external client. -/
  | apiError (msg : String)
  deriving Repr, DecidableEq

/-- The POST /api/uids handler: parse, ownership check, server-side
pricing, credit check, external createUID, then local record creation,
debit and activity append.  now is the server clock in ms; newId the
database-generated record id. -/
def postUids (sess : Session) (req : CreateUidRequest) (ext : ExtOracle)
    (newId : String) (now : Int) (st : AppState) : HandlerOut CreateResp :=
  match parseInsertUid req with
  | none => ⟨CreateResp.badRequest "Invalid request", st, []⟩
  | some (userId, uidValue, duration) =>
    if sess.isOwner = false ∧ userId ≠ sess.userId then
      ⟨CreateResp.forbidden "Can only create UIDs for your own account", st, []⟩
    else
      match pricingTiers duration with
      | none => ⟨CreateResp.invalidDuration, st, []⟩
      | some cost =>
        match getUser st userId with
        | none => ⟨CreateResp.userNotFound, st, []⟩
        | some user =>
          if user.credits < cost then
            ⟨CreateResp.insufficientCredits, st, []⟩
          else
            let call := clientCreateUIDCall uidValue duration
            match ext call with
            | Except.error e => ⟨CreateResp.apiError e.message, st, [call]⟩
            | Except.ok _ =>
              let expiresAt := now + duration * 3600000
              let r : UidRec :=
                { id := newId, userId := userId, apiKeyId := none,
                  uidValue := uidValue, duration := duration,
                  cost := cost, status := "active",
                  createdAt := now, expiresAt := expiresAt }
              let st1 := createUid st r
              let newCredits := user.credits - cost
              let st2 := updateUserCredits st1 userId newCredits
              let st3 := logActivity st2
                { userId := userId, action := "create_uid",
                  details := "Created UID " ++ uidValue }
              ⟨CreateResp.success r newCredits, st3, [call]⟩

/-- Responses of GET /api/uids/user/:userId. -/
inductive ListResp where
  | success (uids : List UidRec)
  | forbidden (msg : String)
  deriving Repr, DecidableEq

/-- The GET /api/uids/user/:userId handler: a non-owner may only view
the list of their own user id. -/
def getUidsUser (sess : Session) (target : String) (st : AppState) : ListResp :=
  if sess.isOwner = false ∧ target ≠ sess.userId then
    ListResp.forbidden "Can only view your own UIDs"
  else
    ListResp.success (getUserUids st target)

/-- Responses of DELETE /api/uids/:id. -/
inductive DeleteResp where
  | success
  /-- 404 UID not found. -/
  | notFound
  /-- 403 ownership rejection. -/
  | forbidden (msg : String)
  /-- 500 Failed to delete UID from external service. -/
  | externalError (msg : String)
  deriving Repr, DecidableEq

/-- The DELETE /api/uids/:id handler: look up the record, check
ownership, call the external deleteUID, and only on its success delete
the local record and log. -/
def deleteUids (sess : Session) (uidId : String) (ext : ExtOracle)
    (st : AppState) : HandlerOut DeleteResp :=
  match getUid st uidId with
  | none => ⟨DeleteResp.notFound, st, []⟩
  | some uid =>
    if sess.isOwner = false ∧ uid.userId ≠ sess.userId then
      ⟨DeleteResp.forbidden "Can only delete your own UIDs", st, []⟩
    else
      match ext (clientDeleteUIDCall uid.uidValue) with
      | Except.error e =>
          ⟨DeleteResp.externalError e.message, st, [clientDeleteUIDCall uid.uidValue]⟩
      | Except.ok _ =>
          let st1 := deleteUid st uidId
          let st2 := logActivity st1
            { userId := sess.userId, action := "delete_uid",
              details := "Deleted UID " ++ uid.uidValue }
          ⟨DeleteResp.success, st2, [clientDeleteUIDCall uid.uidValue]⟩

/-- Responses of PATCH /api/uids/:id (status update). -/
inductive StatusResp where
  | success
  | forbidden (msg : String)
  deriving Repr, DecidableEq

/-- The PATCH /api/uids/:id handler: looks for the record among the
UIDs of the session user; rejects when absent there and the caller is
not owner; otherwise updates the status, and logs only when the record
was found in that list. -/
def patchUidStatus (sess : Session) (uidId : String) (status : String)
    (st : AppState) : HandlerOut StatusResp :=
  let found := (getUserUids st sess.userId).find? (fun u => u.id == uidId)
  match found with
  | none =>
    if sess.isOwner = false then
      ⟨StatusResp.forbidden "Can only update your own UIDs", st, []⟩
    else
      ⟨StatusResp.success, updateUid st uidId status, []⟩
  | some uid =>
      let st1 := updateUid st uidId status
      let st2 := logActivity st1
        { userId := uid.userId, action := "update_uid",
          details := "Updated UID " ++ uid.uidValue ++ " status to " ++ status }
      ⟨StatusResp.success, st2, []⟩

/-- Responses of PATCH /api/uids/:id/value. -/
inductive ValueResp where
  | success (oldValue newValue : String)
  /-- 400 from updateUidValueSchema parsing. -/
  | badRequest (msg : String)
  /-- 404 UID not found. -/
  | notFound
  /-- 403 ownership rejection. -/
  | forbidden (msg : String)
  /-- 400 Failed to update UID on external service. -/
  | externalError (msg : String)
  deriving Repr, DecidableEq

/-- The PATCH /api/uids/:id/value handler: parse the new value, look up
the record, check ownership, run the composite external updateUID, and
only on its success update the local value and log. -/
def patchUidValue (sess : Session) (uidId : String) (newUidValueRaw : String)
    (ext : ExtOracle) (st : AppState) : HandlerOut ValueResp :=
  match parseUpdateUidValue newUidValueRaw with
  | none => ⟨ValueResp.badRequest "Invalid request", st, []⟩
  | some newUidValue =>
    match getUid st uidId with
    | none => ⟨ValueResp.notFound, st, []⟩
    | some uid =>
      if sess.isOwner = false ∧ uid.userId ≠ sess.userId then
        ⟨ValueResp.forbidden "Can only update your own UIDs", st, []⟩
      else
        let oldUidValue := uid.uidValue
        match clientUpdateUID ext oldUidValue newUidValue with
        | (Except.error e, calls) => ⟨ValueResp.externalError e.message, st, calls⟩
        | (Except.ok _, calls) =>
            let st1 := updateUidValue st uidId newUidValue
            let st2 := logActivity st1
              { userId := sess.userId, action := "update_uid_value",
                details := "Updated UID from " ++ oldUidValue ++ " to " ++ newUidValue }
            ⟨ValueResp.success oldUidValue newUidValue, st2, calls⟩

/-! External-facing API handlers, from src/server/api-handler.ts.
The caller is authenticated by an API key document. -/

/-- The API key document resolved by verifyApiKey: its own id and the
id of the user it belongs to (req.apiUserId). -/
structure ApiKeyDoc where
  id : String
  userId : String
  deriving Repr, DecidableEq

/-- The body of a remove_uid_api or renew_uid_api request: optional
uid_id, optional uid value, and for renew the number of days. -/
structure UidRefRequest where
  uid_id : Option String
  uid : Option String
  deriving Repr, DecidableEq

/-- The lookup shared by handleRemoveUid and handleRenewUid: find the
UID record by id or by value, restricted to records created by the
calling API key (apiKeyId filter in the query). -/
def findApiKeyUid (st : AppState) (key : ApiKeyDoc) (ref : UidRefRequest) :
    Option UidRec :=
  match ref.uid_id with
  | some i => st.uids.find? (fun u => u.id == i && u.apiKeyId == some key.id)
  | none =>
    match ref.uid with
    | some v => st.uids.find? (fun u => u.uidValue == v && u.apiKeyId == some key.id)
    | none => none

/-- Responses of action remove_uid_api. -/
inductive RemoveResp where
  | success (uidId uidValue : String)
  /-- 400 Either uid_id or uid is required. -/
  | badRequest
  /-- 404 UID not found or not created by this API key. -/
  | notFound
  deriving Repr, DecidableEq

/-- handleRemoveUid: require a reference, look the record up in the
scope of the calling API key, then set its status to deleted (the
record itself is retained) and log. -/
def handleRemoveUid (key : ApiKeyDoc) (ref : UidRefRequest) (st : AppState) :
    HandlerOut RemoveResp :=
  if ref.uid_id = none ∧ ref.uid = none then
    ⟨RemoveResp.badRequest, st, []⟩
  else
    match findApiKeyUid st key ref with
    | none => ⟨RemoveResp.notFound, st, []⟩
    | some uidDoc =>
        let st1 := updateUid st uidDoc.id "deleted"
        let st2 := logActivity st1
          { userId := key.userId, action := "delete_uid_api",
            details := "UID " ++ uidDoc.uidValue ++ " deleted via API" }
        ⟨RemoveResp.success uidDoc.id uidDoc.uidValue, st2, []⟩

/-- Responses of action renew_uid_api. -/
inductive RenewResp where
  /-- 200: record id, old and new expiry in ms, days added. -/
  | success (uidId : String) (oldExpiresAt newExpiresAt : Int) (daysAdded : Int)
  /-- 400 Either uid_id or uid is required. -/
  | badRequest
  /-- 400 Days must be a positive number. -/
  | invalidDays
  /-- 404 UID not found or not created by this API key. -/
  | notFound
  deriving Repr, DecidableEq

/-- handleRenewUid: require a reference and days strictly positive,
look the record up in the scope of the calling API key, advance
expiresAt by days (setDate on a UTC clock, that is days times 86400000
ms), add days times 24 to duration, flip an expired status back to
active, and log. -/
def handleRenewUid (key : ApiKeyDoc) (ref : UidRefRequest) (days : Option Int)
    (st : AppState) : HandlerOut RenewResp :=
  if ref.uid_id = none ∧ ref.uid = none then
    ⟨RenewResp.badRequest, st, []⟩
  else
    match days with
    | none => ⟨RenewResp.invalidDays, st, []⟩
    | some d =>
      if d ≤ 0 then
        ⟨RenewResp.invalidDays, st, []⟩
      else
        match findApiKeyUid st key ref with
        | none => ⟨RenewResp.notFound, st, []⟩
        | some uidDoc =>
            let newExpiresAt := uidDoc.expiresAt + d * 86400000
            let updated : UidRec :=
              { uidDoc with
                expiresAt := newExpiresAt,
                duration := uidDoc.duration + d * 24,
                status := if uidDoc.status = "expired" then "active" else uidDoc.status }
            let st1 : AppState :=
              { st with uids := st.uids.map (fun u =>
                  if u.id == uidDoc.id then updated else u) }
            let st2 := logActivity st1
              { userId := key.userId, action := "renew_uid_api",
                details := "UID " ++ uidDoc.uidValue ++ " renewed via API" }
            ⟨RenewResp.success uidDoc.id uidDoc.expiresAt newExpiresAt d, st2, []⟩

/-! Helper predicates and sample fixtures. -/

/-- Whether a create response is the 200 success. -/
def CreateResp.isSuccess : CreateResp → Bool
  | CreateResp.success _ _ => true
  | _ => false

/-- Whether a delete response is the 200 success. -/
def DeleteResp.isSuccess : DeleteResp → Bool
  | DeleteResp.success => true
  | _ => false

/-- Whether a value-update response is the 200 success. -/
def ValueResp.isSuccess : ValueResp → Bool
  | ValueResp.success _ _ => true
  | _ => false

/-- Whether a renew response is the 200 success. -/
def RenewResp.isSuccess : RenewResp → Bool
  | RenewResp.success _ _ _ _ => true
  | _ => false

/-- Whether a remove response is the 200 success. -/
def RemoveResp.isSuccess : RemoveResp → Bool
  | RemoveResp.success _ _ => true
  | _ => false

/-- Sample fixtures used to exercise the handlers on concrete inputs. -/
def userOwner : User := { id := "owner1", username := "admin", isOwner := true, credits := 0 }

/-- A regular user with balance 5.00 dollars (500 cents). -/
def userBob : User := { id := "u2", username := "bob", isOwner := false, credits := 500 }

/-- A regular user with balance 2.00 dollars (200 cents). -/
def userAlice : User := { id := "u3", username := "alice", isOwner := false, credits := 200 }

/-- A dashboard-created UID record owned by u2. -/
def uidBob : UidRec :=
  { id := "uidX", userId := "u2", apiKeyId := none, uidValue := "ABC123",
    duration := 72, cost := 130, status := "active",
    createdAt := 0, expiresAt := 259200000 }

/-- An API-key-created UID record owned by u2, currently expired. -/
def uidApi : UidRec :=
  { id := "uidY", userId := "u2", apiKeyId := some "key1", uidValue := "XYZ999",
    duration := 24, cost := 0, status := "expired",
    createdAt := 0, expiresAt := 86400000 }

/-- A sample store with an owner, two regular users and two UID records. -/
def sampleState : AppState :=
  { users := [userOwner, userBob, userAlice], uids := [uidBob, uidApi], activity := [] }

/-- The API key of user u2. -/
def keyOne : ApiKeyDoc := { id := "key1", userId := "u2" }

/-- An external service that accepts every call. -/
def extOk : ExtOracle := fun _ => Except.ok ()

/-- An external service that rejects every call. -/
def extFail : ExtOracle := fun _ => Except.error { message := "remote failure" }

/-- An external service that rejects only remove_uid_api calls. -/
def extDeleteFail : ExtOracle := fun c =>
  match c with
  | ExtCall.removeUid _ => Except.error { message := "remote failure" }
  | _ => Except.ok ()

/-- An external service that rejects only add_uid_free_api calls (the
rename scenario where delete succeeds and the free create fails). -/
def extFreeCreateFail : ExtOracle := fun c =>
  match c with
  | ExtCall.addUidFree _ _ => Except.error { message := "remote failure" }
  | _ => Except.ok ()

/-! Helper lemmas. -/

/-- Replacing, in a list of records, every record of a given id by the
image of a field update that preserves the id, replaces the record that
a lookup by that id finds. -/
lemma find_update_eq (l : List UidRec) (uidId : String) (f : UidRec → UidRec)
    (hf : ∀ u, (f u).id = u.id) (u0 : UidRec)
    (h : l.find? (fun u => u.id == uidId) = some u0) :
    (l.map fun u => if u.id == uidId then f u else u).find? (fun u => u.id == uidId)
      = some (f u0) := by
  induction l with
  | nil => simp at h
  | cons a t ih =>
    by_cases ha : (a.id == uidId) = true
    · rw [List.find?_cons_of_pos (p := fun (u : UidRec) => u.id == uidId) t ha] at h
      cases h
      simp only [List.map_cons, if_pos ha]
      exact List.find?_cons_of_pos (p := fun (u : UidRec) => u.id == uidId) _
        (by simp only [hf]; exact ha)
    · rw [List.find?_cons_of_neg (p := fun (u : UidRec) => u.id == uidId) t ha] at h
      simp only [List.map_cons, if_neg ha]
      rw [List.find?_cons_of_neg (p := fun (u : UidRec) => u.id == uidId) _ ha]
      exact ih h

/-- Replacing, in a list of records, every record of a given id by one
fixed record carrying that id, makes a lookup by that id find the fixed
record, provided some record with the id was present. -/
lemma find_replace_eq (l : List UidRec) (uidId : String) (r : UidRec)
    (hr : r.id = uidId) (u0 : UidRec)
    (h : l.find? (fun u => u.id == uidId) = some u0) :
    (l.map fun u => if u.id == uidId then r else u).find? (fun u => u.id == uidId)
      = some r := by
  induction l with
  | nil => simp at h
  | cons a t ih =>
    by_cases ha : (a.id == uidId) = true
    · simp only [List.map_cons, if_pos ha]
      exact List.find?_cons_of_pos (p := fun (u : UidRec) => u.id == uidId) _ (by simp [hr])
    · rw [List.find?_cons_of_neg (p := fun (u : UidRec) => u.id == uidId) t ha] at h
      simp only [List.map_cons, if_neg ha]
      rw [List.find?_cons_of_neg (p := fun (u : UidRec) => u.id == uidId) _ ha]
      exact ih h

/-- A record found by the API-key-scoped lookup is in the store. -/
lemma findApiKeyUid_mem {st : AppState} {key : ApiKeyDoc} {ref : UidRefRequest}
    {u : UidRec} (h : findApiKeyUid st key ref = some u) : u ∈ st.uids := by
  unfold findApiKeyUid at h
  cases h1 : ref.uid_id with
  | some i => rw [h1] at h; exact List.mem_of_find?_eq_some h
  | none =>
    rw [h1] at h
    cases h2 : ref.uid with
    | some v => rw [h2] at h; exact List.mem_of_find?_eq_some h
    | none => rw [h2] at h; cases h

/-- The API-key-scoped lookup finds nothing when the request carries
neither uid_id nor uid. -/
lemma findApiKeyUid_ref {st : AppState} {key : ApiKeyDoc} {ref : UidRefRequest}
    {u : UidRec} (h : findApiKeyUid st key ref = some u) :
    ¬(ref.uid_id = none ∧ ref.uid = none) := by
  rintro ⟨h1, h2⟩
  unfold findApiKeyUid at h
  rw [h1, h2] at h
  cases h

/-- A store with a record of a given id yields some first record of
that id. -/
lemma find_id_isSome {st : AppState} {u : UidRec} (hm : u ∈ st.uids) :
    ∃ u0, st.uids.find? (fun v => v.id == u.id) = some u0 := by
  have : (st.uids.find? (fun v => v.id == u.id)).isSome := by
    rw [List.find?_isSome]
    exact ⟨u, hm, by simp⟩
  cases h : st.uids.find? (fun v => v.id == u.id) with
  | some u0 => exact ⟨u0, rfl⟩
  | none => rw [h] at this; cases this

/-- C1: for every Create attempt via POST /api/uids in which the
external createUID call fails with an error, the operation aborts
atomically: the store state after the request (user credits, UID
records, activity log) equals the state before it, and the response is
not a success. -/
theorem create_external_failure_atomic (sess : Session) (req : CreateUidRequest)
    (e : UIDBypassError) (newId : String) (now : Int) (st : AppState) :
    (postUids sess req (fun _ => Except.error e) newId now st).state = st ∧
    (postUids sess req (fun _ => Except.error e) newId now st).resp.isSuccess = false := by
  unfold postUids
  cases hp : parseInsertUid req with
  | none => exact ⟨rfl, rfl⟩
  | some p =>
    obtain ⟨userId, uidValue, duration⟩ := p
    dsimp only
    split
    · exact ⟨rfl, rfl⟩
    · cases hpt : pricingTiers duration with
      | none => exact ⟨rfl, rfl⟩
      | some cost =>
        cases hu : getUser st userId with
        | none => exact ⟨rfl, rfl⟩
        | some user =>
          dsimp only
          split
          · exact ⟨rfl, rfl⟩
          · exact ⟨rfl, rfl⟩

/-- Every non-success branch of POST /api/uids leaves the store
unchanged and issues the external call list it reports. -/
lemma postUids_state_or (sess : Session) (req : CreateUidRequest) (ext : ExtOracle)
    (newId : String) (now : Int) (st : AppState) :
    (postUids sess req ext newId now st).state = st ∨
    (postUids sess req ext newId now st).resp.isSuccess = true := by
  unfold postUids
  cases hp : parseInsertUid req with
  | none => exact Or.inl rfl
  | some p =>
    obtain ⟨userId, uidValue, duration⟩ := p
    dsimp only
    split
    · exact Or.inl rfl
    · cases hpt : pricingTiers duration with
      | none => exact Or.inl rfl
      | some cost =>
        cases hu : getUser st userId with
        | none => exact Or.inl rfl
        | some user =>
          dsimp only
          split
          · exact Or.inl rfl
          · cases hext : ext (clientCreateUIDCall uidValue duration) with
            | error e => exact Or.inl rfl
            | ok v => exact Or.inr rfl

/-- Every non-success branch of DELETE /api/uids/:id leaves the store
unchanged. -/
lemma deleteUids_state_or (sess : Session) (uidId : String) (ext : ExtOracle)
    (st : AppState) :
    (deleteUids sess uidId ext st).state = st ∨
    (deleteUids sess uidId ext st).resp = DeleteResp.success := by
  unfold deleteUids
  cases hg : getUid st uidId with
  | none => exact Or.inl rfl
  | some uid =>
    dsimp only
    split
    · exact Or.inl rfl
    · cases hext : ext (clientDeleteUIDCall uid.uidValue) with
      | error e => exact Or.inl rfl
      | ok v => exact Or.inr rfl

/-- Every non-success branch of PATCH /api/uids/:id/value leaves the
store unchanged. -/
lemma patchUidValue_state_or (sess : Session) (uidId newRaw : String)
    (ext : ExtOracle) (st : AppState) :
    (patchUidValue sess uidId newRaw ext st).state = st ∨
    (patchUidValue sess uidId newRaw ext st).resp.isSuccess = true := by
  unfold patchUidValue
  cases hp : parseUpdateUidValue newRaw with
  | none => exact Or.inl rfl
  | some v =>
    dsimp only
    cases hg : getUid st uidId with
    | none => exact Or.inl rfl
    | some uid =>
      dsimp only
      split
      · exact Or.inl rfl
      · cases hcu : clientUpdateUID ext uid.uidValue v with
        | mk r calls =>
          cases r with
          | error e => exact Or.inl rfl
          | ok v2 => exact Or.inr rfl

/-- Every non-success branch of renew_uid_api leaves the store
unchanged. -/
lemma handleRenewUid_state_or (key : ApiKeyDoc) (ref : UidRefRequest)
    (days : Option Int) (st : AppState) :
    (handleRenewUid key ref days st).state = st ∨
    (handleRenewUid key ref days st).resp.isSuccess = true := by
  unfold handleRenewUid
  split
  · exact Or.inl rfl
  · cases days with
    | none => exact Or.inl rfl
    | some d =>
      dsimp only
      split
      · exact Or.inl rfl
      · cases hf : findApiKeyUid st key ref with
        | none => exact Or.inl rfl
        | some uidDoc => exact Or.inr rfl

/-- A successful parse of the create body returns exactly the request
fields. -/
lemma parseInsertUid_eq {req : CreateUidRequest} {p : String × String × Int}
    (h : parseInsertUid req = some p) :
    p = (req.userId, req.uidValue, req.duration) := by
  unfold parseInsertUid at h
  split at h
  · cases h; rfl
  · cases h

/-- A successful parse of the value-update body returns the raw value. -/
lemma parseUpdateUidValue_eq {newRaw v : String}
    (h : parseUpdateUidValue newRaw = some v) : v = newRaw := by
  unfold parseUpdateUidValue at h
  split at h
  · cases h; rfl
  · cases h

/-- Full characterization of a successful POST /api/uids run: the body
parsed to the request fields, the cost on the record is the tier price
of the requested duration, the record is the server-built one, the new
balance is the old balance minus the cost, the final state is record
insertion plus debit plus one activity entry, and exactly the one
converted external call was issued and succeeded. -/
lemma postUids_success_spec (sess : Session) (req : CreateUidRequest) (ext : ExtOracle)
    (newId : String) (now : Int) (st : AppState) (r : UidRec) (nc : Int)
    (h : (postUids sess req ext newId now st).resp = CreateResp.success r nc) :
    parseInsertUid req = some (req.userId, req.uidValue, req.duration) ∧
    pricingTiers req.duration = some r.cost ∧
    r = { id := newId, userId := req.userId, apiKeyId := none,
          uidValue := req.uidValue, duration := req.duration, cost := r.cost,
          status := "active", createdAt := now,
          expiresAt := now + req.duration * 3600000 } ∧
    (∃ user, getUser st req.userId = some user ∧ ¬ user.credits < r.cost ∧
       nc = user.credits - r.cost) ∧
    (postUids sess req ext newId now st).state
      = logActivity (updateUserCredits (createUid st r) req.userId nc)
          { userId := req.userId, action := "create_uid",
            details := "Created UID " ++ req.uidValue } ∧
    (postUids sess req ext newId now st).extCalls
      = [clientCreateUIDCall req.uidValue req.duration] ∧
    ext (clientCreateUIDCall req.uidValue req.duration) = Except.ok () := by
  unfold postUids at h ⊢
  cases hp : parseInsertUid req with
  | none => rw [hp] at h; cases h
  | some p =>
    have hp2 := parseInsertUid_eq hp
    subst hp2
    rw [hp] at h
    dsimp only at h ⊢
    by_cases hown : sess.isOwner = false ∧ req.userId ≠ sess.userId
    · rw [if_pos hown] at h; cases h
    · rw [if_neg hown] at h ⊢
      cases hpt : pricingTiers req.duration with
      | none => rw [hpt] at h; cases h
      | some cost =>
        rw [hpt] at h
        dsimp only at h ⊢
        cases hu : getUser st req.userId with
        | none => rw [hu] at h; cases h
        | some user =>
          rw [hu] at h
          dsimp only at h ⊢
          by_cases hcred : user.credits < cost
          · rw [if_pos hcred] at h; cases h
          · rw [if_neg hcred] at h ⊢
            cases hext : ext (clientCreateUIDCall req.uidValue req.duration) with
            | error e => rw [hext] at h; cases h
            | ok v =>
              cases v
              rw [hext] at h
              dsimp only at h ⊢
              injection h with h1 h2
              subst h1
              subst h2
              refine ⟨rfl, rfl, rfl, ⟨user, rfl, hcred, rfl⟩, rfl, rfl, rfl⟩

/-- Sufficient conditions for POST /api/uids to succeed: well-formed
body, ownership check passed, priced duration, existing user with
enough credits, and an accepting external service. -/
lemma postUids_success_of (sess : Session) (req : CreateUidRequest) (ext : ExtOracle)
    (newId : String) (now : Int) (st : AppState) (cost : Int) (user : User)
    (hp : parseInsertUid req = some (req.userId, req.uidValue, req.duration))
    (hown : ¬(sess.isOwner = false ∧ req.userId ≠ sess.userId))
    (hpt : pricingTiers req.duration = some cost)
    (hu : getUser st req.userId = some user)
    (hcred : ¬ user.credits < cost)
    (hext : ext (clientCreateUIDCall req.uidValue req.duration) = Except.ok ()) :
    (postUids sess req ext newId now st).resp.isSuccess = true := by
  unfold postUids
  rw [hp]
  dsimp only
  rw [if_neg hown, hpt]
  dsimp only
  rw [hu]
  dsimp only
  rw [if_neg hcred, hext]
  rfl

/-- Full characterization of a successful DELETE /api/uids/:id run. -/
lemma deleteUids_success_spec (sess : Session) (uidId : String) (ext : ExtOracle)
    (st : AppState) (h : (deleteUids sess uidId ext st).resp = DeleteResp.success) :
    ∃ uid, getUid st uidId = some uid ∧
      ext (clientDeleteUIDCall uid.uidValue) = Except.ok () ∧
      (deleteUids sess uidId ext st).state
        = logActivity (deleteUid st uidId)
            { userId := sess.userId, action := "delete_uid",
              details := "Deleted UID " ++ uid.uidValue } ∧
      (deleteUids sess uidId ext st).extCalls = [clientDeleteUIDCall uid.uidValue] := by
  unfold deleteUids at h ⊢
  cases hg : getUid st uidId with
  | none => rw [hg] at h; cases h
  | some uid =>
    rw [hg] at h
    dsimp only at h ⊢
    by_cases hown : sess.isOwner = false ∧ uid.userId ≠ sess.userId
    · rw [if_pos hown] at h; cases h
    · rw [if_neg hown] at h ⊢
      cases hext : ext (clientDeleteUIDCall uid.uidValue) with
      | error e => rw [hext] at h; cases h
      | ok v =>
        cases v
        rw [hext] at h
        dsimp only at h ⊢
        exact ⟨uid, rfl, hext, rfl, rfl⟩

/-- Full characterization of a successful PATCH /api/uids/:id/value
run. -/
lemma patchUidValue_success_spec (sess : Session) (uidId newRaw : String)
    (ext : ExtOracle) (st : AppState) (ov nv : String)
    (h : (patchUidValue sess uidId newRaw ext st).resp = ValueResp.success ov nv) :
    nv = newRaw ∧
    ∃ uid, getUid st uidId = some uid ∧ ov = uid.uidValue ∧
      (clientUpdateUID ext uid.uidValue newRaw).1 = Except.ok () ∧
      (patchUidValue sess uidId newRaw ext st).state
        = logActivity (updateUidValue st uidId newRaw)
            { userId := sess.userId, action := "update_uid_value",
              details := "Updated UID from " ++ uid.uidValue ++ " to " ++ newRaw } ∧
      (patchUidValue sess uidId newRaw ext st).extCalls
        = (clientUpdateUID ext uid.uidValue newRaw).2 := by
  unfold patchUidValue at h ⊢
  cases hp : parseUpdateUidValue newRaw with
  | none => rw [hp] at h; cases h
  | some v =>
    have hv := parseUpdateUidValue_eq hp
    subst hv
    rw [hp] at h
    dsimp only at h ⊢
    cases hg : getUid st uidId with
    | none => rw [hg] at h; cases h
    | some uid =>
      rw [hg] at h
      dsimp only at h ⊢
      by_cases hown : sess.isOwner = false ∧ uid.userId ≠ sess.userId
      · rw [if_pos hown] at h; cases h
      · rw [if_neg hown] at h ⊢
        cases hcu : clientUpdateUID ext uid.uidValue v with
        | mk res calls =>
          rw [hcu] at h
          cases res with
          | error e => cases h
          | ok v2 =>
            cases v2
            dsimp only at h ⊢
            injection h with h1 h2
            subst h1
            subst h2
            exact ⟨rfl, uid, rfl, rfl, by rw [hcu], rfl, by rw [hcu]⟩

/-- Characterization of a successful renew_uid_api run under a positive
days value and an in-scope record. -/
lemma handleRenewUid_spec (key : ApiKeyDoc) (ref : UidRefRequest) (d : Int)
    (st : AppState) (uidDoc : UidRec) (hd : 0 < d)
    (hf : findApiKeyUid st key ref = some uidDoc) :
    handleRenewUid key ref (some d) st
      = ⟨RenewResp.success uidDoc.id uidDoc.expiresAt (uidDoc.expiresAt + d * 86400000) d,
         logActivity
           { st with uids := st.uids.map (fun u =>
               if u.id == uidDoc.id then
                 { uidDoc with
                   expiresAt := uidDoc.expiresAt + d * 86400000,
                   duration := uidDoc.duration + d * 24,
                   status := if uidDoc.status = "expired" then "active" else uidDoc.status }
               else u) }
           { userId := key.userId, action := "renew_uid_api",
             details := "UID " ++ uidDoc.uidValue ++ " renewed via API" },
         []⟩ := by
  unfold handleRenewUid
  rw [if_neg (findApiKeyUid_ref hf)]
  dsimp only
  rw [if_neg (by omega : ¬ d ≤ 0)]
  rw [hf]

/-- Characterization of a successful remove_uid_api run: the record is
kept, only its status is set to deleted. -/
lemma handleRemoveUid_spec (key : ApiKeyDoc) (ref : UidRefRequest)
    (st : AppState) (uidDoc : UidRec)
    (hf : findApiKeyUid st key ref = some uidDoc) :
    handleRemoveUid key ref st
      = ⟨RemoveResp.success uidDoc.id uidDoc.uidValue,
         logActivity (updateUid st uidDoc.id "deleted")
           { userId := key.userId, action := "delete_uid_api",
             details := "UID " ++ uidDoc.uidValue ++ " deleted via API" },
         []⟩ := by
  unfold handleRemoveUid
  rw [if_neg (findApiKeyUid_ref hf)]
  rw [hf]

/-- C4: for every Delete attempt via DELETE /api/uids/:id in which the
external deleteUID call fails, the handler returns an error and the
store (in particular the local UidRecord) is unchanged; and the local
deleteUid runs only after the external delete succeeded: if the record
was present before and absent after, the external call returned ok. -/
theorem delete_external_failure_retains_record :
    (∀ sess uidId e st,
      (deleteUids sess uidId (fun _ => Except.error e) st).state = st ∧
      (deleteUids sess uidId (fun _ => Except.error e) st).resp.isSuccess = false) ∧
    (∀ sess uidId ext st uid,
      getUid st uidId = some uid →
      getUid (deleteUids sess uidId ext st).state uidId = none →
      ext (clientDeleteUIDCall uid.uidValue) = Except.ok ()) := by
  constructor
  · intro sess uidId e st
    unfold deleteUids
    cases hg : getUid st uidId with
    | none => exact ⟨rfl, rfl⟩
    | some uid =>
      dsimp only
      split
      · exact ⟨rfl, rfl⟩
      · exact ⟨rfl, rfl⟩
  · intro sess uidId ext st uid hg hnone
    unfold deleteUids at hnone
    rw [hg] at hnone
    dsimp only at hnone
    by_cases hown : sess.isOwner = false ∧ uid.userId ≠ sess.userId
    · rw [if_pos hown] at hnone
      rw [hg] at hnone
      cases hnone
    · rw [if_neg hown] at hnone
      cases hext : ext (clientDeleteUIDCall uid.uidValue) with
      | error e =>
        rw [hext] at hnone
        dsimp only at hnone
        rw [hg] at hnone
        cases hnone
      | ok v =>
        cases v
        rfl

/-- C5: the composite external rename updateUID is exactly deleteUID on
the old value followed by createUIDFree on the new value; when the
delete sub-call fails, the free-create sub-call is never issued and the
composite fails with the delete error; and every Update-value attempt
whose composite external call fails leaves the local store (in
particular the uidValue field of the record) unchanged. -/
theorem rename_external_failure_semantics :
    (∀ ext oldUid newUid e,
      ext (clientDeleteUIDCall oldUid) = Except.error e →
      clientUpdateUID ext oldUid newUid = (Except.error e, [clientDeleteUIDCall oldUid])) ∧
    (∀ ext oldUid newUid,
      ext (clientDeleteUIDCall oldUid) = Except.ok () →
      clientUpdateUID ext oldUid newUid
        = (ext (clientCreateUIDFreeCall newUid),
           [clientDeleteUIDCall oldUid, clientCreateUIDFreeCall newUid])) ∧
    (∀ sess uidId newRaw ext st m,
      (patchUidValue sess uidId newRaw ext st).resp = ValueResp.externalError m →
      (patchUidValue sess uidId newRaw ext st).state = st) := by
  refine ⟨?_, ?_, ?_⟩
  · intro ext oldUid newUid e h
    unfold clientUpdateUID
    rw [h]
  · intro ext oldUid newUid h
    unfold clientUpdateUID
    rw [h]
  · intro sess uidId newRaw ext st m h
    rcases patchUidValue_state_or sess uidId newRaw ext st with hst | hs
    · exact hst
    · rw [h] at hs
      simp [ValueResp.isSuccess] at hs

/-- The integer form of the hour-to-day conversion equals the true
ceiling of durationHours / 24. -/
lemma hoursToPlanDays_eq_ceil (d : Int) : hoursToPlanDays d = ⌈(d : ℚ) / 24⌉ := by
  have hA : d ≤ 24 * hoursToPlanDays d := by unfold hoursToPlanDays; omega
  have hB : 24 * hoursToPlanDays d - 24 < d := by unfold hoursToPlanDays; omega
  symm
  rw [Int.ceil_eq_iff]
  constructor
  · rw [lt_div_iff (by norm_num : (0:ℚ) < 24)]
    have h1 : (hoursToPlanDays d - 1) * 24 < d := by omega
    calc ((hoursToPlanDays d : ℚ) - 1) * 24
        = ((hoursToPlanDays d - 1 : Int) : ℚ) * 24 := by push_cast; ring
      _ < d := by exact_mod_cast h1
  · rw [div_le_iff (by norm_num : (0:ℚ) < 24)]
    have h2 : d ≤ hoursToPlanDays d * 24 := by omega
    exact_mod_cast h2

/-- C10: the plan_id sent to the external bypass service for a create
of duration d hours is the upward rounding ceil(d / 24) in days, the
region is always PK, and a successful POST /api/uids issues exactly
that converted call (so a 72h request provisions a 3-day plan). -/
theorem plan_id_ceiling :
    (∀ d : Int, hoursToPlanDays d = ⌈(d : ℚ) / 24⌉) ∧
    (∀ d : Int, 0 < d → d ≤ 24 * hoursToPlanDays d ∧ 24 * (hoursToPlanDays d - 1) < d) ∧
    (∀ uid : String, ∀ d : Int,
      clientCreateUIDCall uid d = ExtCall.addUid uid (hoursToPlanDays d) "PK") ∧
    (∀ sess req ext newId now st r nc,
      (postUids sess req ext newId now st).resp = CreateResp.success r nc →
      (postUids sess req ext newId now st).extCalls
        = [ExtCall.addUid req.uidValue (hoursToPlanDays req.duration) "PK"]) ∧
    hoursToPlanDays 72 = 3 ∧ hoursToPlanDays 24 = 1 ∧ hoursToPlanDays 25 = 2 := by
  refine ⟨hoursToPlanDays_eq_ceil, ?_, ?_, ?_, by decide, by decide, by decide⟩
  · intro d _
    unfold hoursToPlanDays
    omega
  · intro uid d
    rfl
  · intro sess req ext newId now st r nc h
    exact (postUids_success_spec sess req ext newId now st r nc h).2.2.2.2.2.1

/-- C10 witness: the two bound parts applied at duration 72 for a
concrete successful create. -/
theorem plan_id_ceiling_witness :
    ((72 : Int) ≤ 24 * hoursToPlanDays 72 ∧ 24 * (hoursToPlanDays 72 - 1) < 72) ∧
    (postUids { userId := "u2", isOwner := false }
        { userId := "u2", uidValue := "ABCDEF", duration := 72, clientCost := none }
        extOk "uid1" 0 sampleState).extCalls
      = [ExtCall.addUid "ABCDEF" (hoursToPlanDays 72) "PK"] := by
  constructor
  · exact plan_id_ceiling.2.1 72 (by decide)
  · exact plan_id_ceiling.2.2.2.1
      { userId := "u2", isOwner := false }
      { userId := "u2", uidValue := "ABCDEF", duration := 72, clientCost := none }
      extOk "uid1" 0 sampleState
      { id := "uid1", userId := "u2", apiKeyId := none, uidValue := "ABCDEF",
        duration := 72, cost := 130, status := "active", createdAt := 0,
        expiresAt := 259200000 }
      370 (by decide)

/-- C7: renew_uid_api with positive days on a record in the calling
API-key scope advances expiresAt by exactly days times 24 hours,
increases duration by days times 24, and flips an expired status back
to active; a request with days missing or nonpositive mutates nothing
and does not succeed. -/
theorem renew_semantics :
    (∀ key ref d st uidDoc u0, 0 < d →
      findApiKeyUid st key ref = some uidDoc →
      getUid st uidDoc.id = some u0 →
      (handleRenewUid key ref (some d) st).resp
        = RenewResp.success uidDoc.id uidDoc.expiresAt
            (uidDoc.expiresAt + d * 24 * 3600000) d ∧
      getUid (handleRenewUid key ref (some d) st).state uidDoc.id
        = some { uidDoc with
            expiresAt := uidDoc.expiresAt + d * 24 * 3600000,
            duration := uidDoc.duration + d * 24,
            status := if uidDoc.status = "expired" then "active" else uidDoc.status }) ∧
    (∀ key ref st,
      (handleRenewUid key ref none st).state = st ∧
      (handleRenewUid key ref none st).resp.isSuccess = false) ∧
    (∀ key ref d st, d ≤ 0 →
      (handleRenewUid key ref (some d) st).state = st ∧
      (handleRenewUid key ref (some d) st).resp.isSuccess = false) := by
  refine ⟨?_, ?_, ?_⟩
  · intro key ref d st uidDoc u0 hd hf hg
    have hms : d * 24 * 3600000 = d * 86400000 := by ring
    rw [handleRenewUid_spec key ref d st uidDoc hd hf]
    rw [hms]
    refine ⟨rfl, ?_⟩
    show (st.uids.map _).find? _ = _
    exact find_replace_eq st.uids uidDoc.id _ rfl u0 hg
  · intro key ref st
    unfold handleRenewUid
    split
    · exact ⟨rfl, rfl⟩
    · exact ⟨rfl, rfl⟩
  · intro key ref d st hd
    unfold handleRenewUid
    split
    · exact ⟨rfl, rfl⟩
    · dsimp only
      rw [if_pos hd]
      exact ⟨rfl, rfl⟩

/-- C7 witness: renewing the expired API-created record uidY by 7 days
flips it to active, advances expiry by 7 days and duration by 168. -/
theorem renew_semantics_witness :
    (handleRenewUid keyOne { uid_id := none, uid := some "XYZ999" } (some 7) sampleState).resp
      = RenewResp.success "uidY" 86400000 (86400000 + 7 * 24 * 3600000) 7 ∧
    getUid (handleRenewUid keyOne { uid_id := none, uid := some "XYZ999" }
        (some 7) sampleState).state "uidY"
      = some { uidApi with
          expiresAt := 86400000 + 7 * 24 * 3600000,
          duration := 24 + 7 * 24,
          status := "active" } ∧
    (handleRenewUid keyOne { uid_id := none, uid := some "XYZ999" } (some 0) sampleState).state
      = sampleState := by
  have h := renew_semantics.1 keyOne { uid_id := none, uid := some "XYZ999" } 7
    sampleState uidApi uidApi (by decide) (by decide) (by decide)
  exact ⟨h.1, h.2, (renew_semantics.2.2 keyOne { uid_id := none, uid := some "XYZ999" }
    0 sampleState (by decide)).1⟩

/-- C9: remove_uid_api is a soft delete: on success the record is kept
with its status set to deleted (store size unchanged), unlike the
dashboard DELETE /api/uids/:id which removes the record from the store
entirely; a UID reference outside the calling API-key scope is reported
as not found with no mutation. -/
theorem api_soft_delete :
    (∀ key ref st uidDoc u0,
      findApiKeyUid st key ref = some uidDoc →
      getUid st uidDoc.id = some u0 →
      (handleRemoveUid key ref st).resp = RemoveResp.success uidDoc.id uidDoc.uidValue ∧
      getUid (handleRemoveUid key ref st).state uidDoc.id
        = some { u0 with status := "deleted" } ∧
      (handleRemoveUid key ref st).state.uids.length = st.uids.length) ∧
    (∀ key ref st i, ref.uid_id = some i →
      findApiKeyUid st key ref = none →
      handleRemoveUid key ref st = ⟨RemoveResp.notFound, st, []⟩) ∧
    (∀ sess uidId ext st,
      (deleteUids sess uidId ext st).resp = DeleteResp.success →
      getUid (deleteUids sess uidId ext st).state uidId = none) := by
  refine ⟨?_, ?_, ?_⟩
  · intro key ref st uidDoc u0 hf hg
    rw [handleRemoveUid_spec key ref st uidDoc hf]
    refine ⟨rfl, ?_, by simp [logActivity, updateUid]⟩
    show ((st.uids.map _).find? _) = _
    exact find_update_eq st.uids uidDoc.id (fun u => { u with status := "deleted" })
      (fun u => rfl) u0 hg
  · intro key ref st i hi hf
    unfold handleRemoveUid
    rw [if_neg (by simp [hi]), hf]
  · intro sess uidId ext st h
    obtain ⟨uid, hg, hok, hstate, hcalls⟩ := deleteUids_success_spec sess uidId ext st h
    rw [hstate]
    show ((st.uids.filter _).find? _) = none
    rw [List.find?_eq_none]
    intro x hx
    have hx2 := (List.mem_filter.mp hx).2
    simp only [bne_iff_ne, ne_eq, decide_eq_true_eq] at hx2
    simp [hx2]

/-- C9 witness: removing uidY through its API key keeps the record with
status deleted; an unknown uid_id is not found with no mutation; the
dashboard delete removes uidX entirely. -/
theorem api_soft_delete_witness :
    getUid (handleRemoveUid keyOne { uid_id := none, uid := some "XYZ999" } sampleState).state "uidY"
      = some { uidApi with status := "deleted" } ∧
    handleRemoveUid keyOne { uid_id := some "nope", uid := none } sampleState
      = ⟨RemoveResp.notFound, sampleState, []⟩ ∧
    getUid (deleteUids { userId := "u2", isOwner := false } "uidX" extOk sampleState).state "uidX"
      = none := by
  refine ⟨?_, ?_, ?_⟩
  · exact (api_soft_delete.1 keyOne { uid_id := none, uid := some "XYZ999" }
      sampleState uidApi uidApi (by decide) (by decide)).2.1
  · exact api_soft_delete.2.1 keyOne { uid_id := some "nope", uid := none }
      sampleState "nope" rfl (by decide)
  · exact api_soft_delete.2.2 { userId := "u2", isOwner := false } "uidX" extOk
      sampleState (by decide)

/-- C3: a non-owner session creating a UID for a different userId,
viewing another user UID list, deleting, or renaming a record owned by
a different user is rejected with the authorization error before any
external call or local mutation; an owner session passes the ownership
checks of the same operations and succeeds subject to the other
preconditions. -/
theorem ownership_enforcement :
    (∀ sess req ext newId now st p,
      sess.isOwner = false → parseInsertUid req = some p → req.userId ≠ sess.userId →
      postUids sess req ext newId now st
        = ⟨CreateResp.forbidden "Can only create UIDs for your own account", st, []⟩) ∧
    (∀ sess req ext newId now st cost user,
      sess.isOwner = true →
      parseInsertUid req = some (req.userId, req.uidValue, req.duration) →
      pricingTiers req.duration = some cost →
      getUser st req.userId = some user →
      ¬ user.credits < cost →
      ext (clientCreateUIDCall req.uidValue req.duration) = Except.ok () →
      (postUids sess req ext newId now st).resp.isSuccess = true) ∧
    (∀ sess target st, sess.isOwner = false → target ≠ sess.userId →
      getUidsUser sess target st = ListResp.forbidden "Can only view your own UIDs") ∧
    (∀ sess target st, sess.isOwner = true →
      getUidsUser sess target st = ListResp.success (getUserUids st target)) ∧
    (∀ sess uidId ext st uid, sess.isOwner = false →
      getUid st uidId = some uid → uid.userId ≠ sess.userId →
      deleteUids sess uidId ext st
        = ⟨DeleteResp.forbidden "Can only delete your own UIDs", st, []⟩) ∧
    (∀ sess uidId ext st uid, sess.isOwner = true →
      getUid st uidId = some uid →
      ext (clientDeleteUIDCall uid.uidValue) = Except.ok () →
      (deleteUids sess uidId ext st).resp = DeleteResp.success) ∧
    (∀ sess uidId newRaw ext st v uid, sess.isOwner = false →
      parseUpdateUidValue newRaw = some v →
      getUid st uidId = some uid → uid.userId ≠ sess.userId →
      patchUidValue sess uidId newRaw ext st
        = ⟨ValueResp.forbidden "Can only update your own UIDs", st, []⟩) ∧
    (∀ sess uidId newRaw ext st v uid, sess.isOwner = true →
      parseUpdateUidValue newRaw = some v →
      getUid st uidId = some uid →
      ext (clientDeleteUIDCall uid.uidValue) = Except.ok () →
      ext (clientCreateUIDFreeCall newRaw) = Except.ok () →
      (patchUidValue sess uidId newRaw ext st).resp.isSuccess = true) := by
  refine ⟨?_, ?_, ?_, ?_, ?_, ?_, ?_, ?_⟩
  · intro sess req ext newId now st p hown hp hne
    have hp2 := parseInsertUid_eq hp
    subst hp2
    unfold postUids
    rw [hp]
    dsimp only
    rw [if_pos ⟨hown, hne⟩]
  · intro sess req ext newId now st cost user hown hp hpt hu hcred hext
    exact postUids_success_of sess req ext newId now st cost user hp
      (by simp [hown]) hpt hu hcred hext
  · intro sess target st hown hne
    unfold getUidsUser
    rw [if_pos ⟨hown, hne⟩]
  · intro sess target st hown
    unfold getUidsUser
    rw [if_neg (by simp [hown])]
  · intro sess uidId ext st uid hown hg hne
    unfold deleteUids
    rw [hg]
    dsimp only
    rw [if_pos ⟨hown, hne⟩]
  · intro sess uidId ext st uid hown hg hext
    unfold deleteUids
    rw [hg]
    dsimp only
    rw [if_neg (by simp [hown]), hext]
  · intro sess uidId newRaw ext st v uid hown hp hg hne
    have hv := parseUpdateUidValue_eq hp
    subst hv
    unfold patchUidValue
    rw [hp]
    dsimp only
    rw [hg]
    dsimp only
    rw [if_pos ⟨hown, hne⟩]
  · intro sess uidId newRaw ext st v uid hown hp hg hdel hfree
    have hv := parseUpdateUidValue_eq hp
    subst hv
    unfold patchUidValue
    rw [hp]
    dsimp only
    rw [hg]
    dsimp only
    rw [if_neg (by simp [hown])]
    unfold clientUpdateUID
    rw [hdel]
    dsimp only
    rw [hfree]
    rfl

/-- C3 witness: the create, view, delete and rename checks exercised on
the sample store for a non-owner acting on user u2 and the owner acting
on records of u2. -/
theorem ownership_enforcement_witness :
    postUids { userId := "u1", isOwner := false }
        { userId := "u2", uidValue := "ABCDEF", duration := 72, clientCost := none }
        extOk "id1" 0 sampleState
      = ⟨CreateResp.forbidden "Can only create UIDs for your own account", sampleState, []⟩ ∧
    (postUids { userId := "owner1", isOwner := true }
        { userId := "u2", uidValue := "ABCDEF", duration := 72, clientCost := none }
        extOk "uid1" 0 sampleState).resp.isSuccess = true ∧
    getUidsUser { userId := "u1", isOwner := false } "u2" sampleState
      = ListResp.forbidden "Can only view your own UIDs" ∧
    getUidsUser { userId := "owner1", isOwner := true } "u2" sampleState
      = ListResp.success (getUserUids sampleState "u2") ∧
    deleteUids { userId := "u3", isOwner := false } "uidX" extOk sampleState
      = ⟨DeleteResp.forbidden "Can only delete your own UIDs", sampleState, []⟩ ∧
    (deleteUids { userId := "owner1", isOwner := true } "uidX" extOk sampleState).resp
      = DeleteResp.success ∧
    patchUidValue { userId := "u3", isOwner := false } "uidX" "XYZ777" extOk sampleState
      = ⟨ValueResp.forbidden "Can only update your own UIDs", sampleState, []⟩ ∧
    (patchUidValue { userId := "owner1", isOwner := true } "uidX" "XYZ777" extOk
        sampleState).resp.isSuccess = true := by
  refine ⟨?_, ?_, ?_, ?_, ?_, ?_, ?_, ?_⟩
  · exact ownership_enforcement.1 { userId := "u1", isOwner := false }
      { userId := "u2", uidValue := "ABCDEF", duration := 72, clientCost := none }
      extOk "id1" 0 sampleState ("u2", "ABCDEF", 72) rfl (by decide) (by decide)
  · exact ownership_enforcement.2.1 { userId := "owner1", isOwner := true }
      { userId := "u2", uidValue := "ABCDEF", duration := 72, clientCost := none }
      extOk "uid1" 0 sampleState 130 userBob rfl (by decide) (by decide) (by decide)
      (by decide) rfl
  · exact ownership_enforcement.2.2.1 { userId := "u1", isOwner := false } "u2"
      sampleState rfl (by decide)
  · exact ownership_enforcement.2.2.2.1 { userId := "owner1", isOwner := true } "u2"
      sampleState rfl
  · exact ownership_enforcement.2.2.2.2.1 { userId := "u3", isOwner := false } "uidX"
      extOk sampleState uidBob rfl (by decide) (by decide)
  · exact ownership_enforcement.2.2.2.2.2.1 { userId := "owner1", isOwner := true }
      "uidX" extOk sampleState uidBob rfl (by decide) rfl
  · exact ownership_enforcement.2.2.2.2.2.2.1 { userId := "u3", isOwner := false }
      "uidX" "XYZ777" extOk sampleState "XYZ777" uidBob rfl (by decide) (by decide)
      (by decide)
  · exact ownership_enforcement.2.2.2.2.2.2.2 { userId := "owner1", isOwner := true }
      "uidX" "XYZ777" extOk sampleState "XYZ777" uidBob rfl (by decide) (by decide)
      rfl rfl

/-- C2 counterexample: a well-formed request with duration 100 (not a
key of the tier table) sent by a non-owner for another user is rejected
with the authorization error, not the validation error the claim
asserts for every request whose duration is not a tier key — the
ownership check runs before the pricing lookup. -/
theorem invalid_duration_auth_precedence_cex :
    pricingTiers 100 = none ∧
    (postUids { userId := "u1", isOwner := false }
        { userId := "u2", uidValue := "ABCDEF", duration := 100, clientCost := none }
        extOk "id1" 0 sampleState).resp
      = CreateResp.forbidden "Can only create UIDs for your own account" ∧
    ((postUids { userId := "u1", isOwner := false }
        { userId := "u2", uidValue := "ABCDEF", duration := 100, clientCost := none }
        extOk "id1" 0 sampleState).resp
      == CreateResp.invalidDuration) = false := by
  exact ⟨by decide, by decide, by decide⟩

/-- C2 amended: the cost recorded on the created record and debited
from the balance equals the fixed server-side tier price for the
requested duration, regardless of any client-supplied cost field; a
request whose duration is not a tier key causes no external call, no
record creation and no credit change, and is rejected with the
validation error whenever it passes schema parsing and the ownership
check (a non-owner creating for another user receives the
authorization error instead, still with no side effects). -/
theorem server_side_pricing :
    (∀ sess req ext newId now st c,
      postUids sess { req with clientCost := c } ext newId now st
        = postUids sess req ext newId now st) ∧
    (∀ sess req ext newId now st r nc,
      (postUids sess req ext newId now st).resp = CreateResp.success r nc →
      pricingTiers req.duration = some r.cost ∧
      ∃ user, getUser st req.userId = some user ∧ nc = user.credits - r.cost) ∧
    (∀ sess req ext newId now st,
      pricingTiers req.duration = none →
      (postUids sess req ext newId now st).state = st ∧
      (postUids sess req ext newId now st).extCalls = [] ∧
      (postUids sess req ext newId now st).resp.isSuccess = false) ∧
    (∀ sess req ext newId now st,
      pricingTiers req.duration = none →
      parseInsertUid req = some (req.userId, req.uidValue, req.duration) →
      ¬(sess.isOwner = false ∧ req.userId ≠ sess.userId) →
      (postUids sess req ext newId now st).resp = CreateResp.invalidDuration) := by
  refine ⟨?_, ?_, ?_, ?_⟩
  · intro sess req ext newId now st c
    rfl
  · intro sess req ext newId now st r nc h
    obtain ⟨_, hpt, _, ⟨user, hu, _, hnc⟩, _⟩ := postUids_success_spec sess req ext newId now st r nc h
    exact ⟨hpt, user, hu, hnc⟩
  · intro sess req ext newId now st hnone
    unfold postUids
    cases hp : parseInsertUid req with
    | none => exact ⟨rfl, rfl, rfl⟩
    | some p =>
      have hp2 := parseInsertUid_eq hp
      subst hp2
      dsimp only
      split
      · exact ⟨rfl, rfl, rfl⟩
      · rw [hnone]
        exact ⟨rfl, rfl, rfl⟩
  · intro sess req ext newId now st hnone hp hown
    unfold postUids
    rw [hp]
    dsimp only
    rw [if_neg hown, hnone]

/-- C2 witness: the three bound parts applied concretely — a successful
72h create shows cost 130 cents and a 370-cent remaining balance; the
owner requesting an unpriced 100h duration gets the validation error
with no side effects. -/
theorem server_side_pricing_witness :
    pricingTiers 72 = some 130 ∧
    (postUids { userId := "owner1", isOwner := true }
        { userId := "u2", uidValue := "ABCDEF", duration := 100, clientCost := none }
        extOk "id1" 0 sampleState).state = sampleState ∧
    (postUids { userId := "owner1", isOwner := true }
        { userId := "u2", uidValue := "ABCDEF", duration := 100, clientCost := none }
        extOk "id1" 0 sampleState).resp = CreateResp.invalidDuration := by
  refine ⟨?_, ?_, ?_⟩
  · have h := server_side_pricing.2.1 { userId := "u2", isOwner := false }
      { userId := "u2", uidValue := "ABCDEF", duration := 72, clientCost := none }
      extOk "uid1" 0 sampleState
      { id := "uid1", userId := "u2", apiKeyId := none, uidValue := "ABCDEF",
        duration := 72, cost := 130, status := "active", createdAt := 0,
        expiresAt := 259200000 }
      370 (by decide)
    exact h.1
  · exact (server_side_pricing.2.2.1 { userId := "owner1", isOwner := true }
      { userId := "u2", uidValue := "ABCDEF", duration := 100, clientCost := none }
      extOk "id1" 0 sampleState (by decide)).1
  · exact server_side_pricing.2.2.2 { userId := "owner1", isOwner := true }
      { userId := "u2", uidValue := "ABCDEF", duration := 100, clientCost := none }
      extOk "id1" 0 sampleState (by decide) rfl (by decide)

/-- C6 counterexample: the code stores credit values as JS numbers
(parseFloat in MongoDBStorage.updateUserCredits and numeric Mongo
fields), and every finite JS number is a dyadic rational m / 2 ^ k; but
the 72h tier price of 1.30 dollars (130 cents, so the rational 13 / 10)
equals no dyadic rational, so the stored balance after a 72h debit is a
binary floating-point approximation, never the exact two-decimal
decimal the claim asserts the representation to be. -/
theorem credits_not_exact_decimal_cex :
    pricingTiers 72 = some 130 ∧
    ((130 : ℚ) / 100 = 13 / 10) ∧
    ∀ m : ℤ, ∀ k : ℕ, (((m : ℚ) / 2 ^ k) == (13 : ℚ) / 10) = false := by
  refine ⟨rfl, by norm_num, ?_⟩
  intro m k
  rw [beq_eq_false_iff_ne]
  intro heq
  have h2 : ((2 : ℚ) ^ k) ≠ 0 := by positivity
  have h10 : (10 : ℚ) ≠ 0 := by norm_num
  rw [div_eq_div_iff h2 h10] at heq
  have hz : m * 10 = 13 * 2 ^ k := by exact_mod_cast heq
  have h5 : (5 : ℤ) ∣ 13 * 2 ^ k := ⟨m * 2, by linarith⟩
  have hp : Prime (5 : ℤ) := by norm_num
  rcases hp.dvd_mul.mp h5 with h | h
  · norm_num at h
  · have h52 := hp.dvd_of_dvd_pow h
    norm_num at h52

/-- C6 amended: credit values are handled by the code as binary
floating-point JS numbers, not exact decimal objects; modelling the
amounts as exact two-decimal values (integer cents, which the float
pipeline reproduces for these amounts): a Create request whose balance
is below the tier price is rejected before any external call with no
state change; a 2.00 balance requesting the 2.33-priced 168h tier is
rejected leaving 2.00; a 5.00 balance requesting the 1.30-priced 72h
tier ends with exactly 3.70. -/
theorem credit_checks :
    (∀ sess req ext newId now st user cost,
      getUser st req.userId = some user →
      pricingTiers req.duration = some cost →
      user.credits < cost →
      (postUids sess req ext newId now st).extCalls = [] ∧
      (postUids sess req ext newId now st).state = st) ∧
    ((postUids { userId := "u3", isOwner := false }
        { userId := "u3", uidValue := "ABCDEF", duration := 168, clientCost := none }
        extOk "uid1" 0 sampleState).resp = CreateResp.insufficientCredits ∧
      (postUids { userId := "u3", isOwner := false }
        { userId := "u3", uidValue := "ABCDEF", duration := 168, clientCost := none }
        extOk "uid1" 0 sampleState).state = sampleState) ∧
    (getUser (postUids { userId := "u2", isOwner := false }
        { userId := "u2", uidValue := "ABCDEF", duration := 72, clientCost := none }
        extOk "uid1" 0 sampleState).state "u2"
      = some { id := "u2", username := "bob", isOwner := false, credits := 370 } ∧
      (postUids { userId := "u2", isOwner := false }
        { userId := "u2", uidValue := "ABCDEF", duration := 72, clientCost := none }
        extOk "uid1" 0 sampleState).resp
      = CreateResp.success
          { id := "uid1", userId := "u2", apiKeyId := none, uidValue := "ABCDEF",
            duration := 72, cost := 130, status := "active", createdAt := 0,
            expiresAt := 259200000 } 370) := by
  refine ⟨?_, ⟨by decide, by decide⟩, ⟨by decide, by decide⟩⟩
  intro sess req ext newId now st user cost hu hpt hcred
  unfold postUids
  cases hp : parseInsertUid req with
  | none => exact ⟨rfl, rfl⟩
  | some p =>
    have hp2 := parseInsertUid_eq hp
    subst hp2
    dsimp only
    split
    · exact ⟨rfl, rfl⟩
    · rw [hpt]
      dsimp only
      rw [hu]
      dsimp only
      rw [if_pos hcred]
      exact ⟨rfl, rfl⟩

/-- C6 witness: the insufficiency part applied at the concrete scenario
of user u3 (balance 2.00) requesting the 168h tier priced 2.33. -/
theorem credit_checks_witness :
    (postUids { userId := "u3", isOwner := false }
        { userId := "u3", uidValue := "ABCDEF", duration := 168, clientCost := none }
        extOk "uid1" 0 sampleState).extCalls = [] ∧
    (postUids { userId := "u3", isOwner := false }
        { userId := "u3", uidValue := "ABCDEF", duration := 168, clientCost := none }
        extOk "uid1" 0 sampleState).state = sampleState := by
  exact credit_checks.1 { userId := "u3", isOwner := false }
    { userId := "u3", uidValue := "ABCDEF", duration := 168, clientCost := none }
    extOk "uid1" 0 sampleState userAlice 233 (by decide) (by decide) (by decide)

/-- C8 counterexample: a successful create by the owner session owner1
on behalf of user u2 appends its single activity entry with actor u2,
not the calling session owner1; and a successful status update by the
owner on a record owned by u2 appends no activity entry at all. -/
theorem activity_actor_cex :
    ((postUids { userId := "owner1", isOwner := true }
        { userId := "u2", uidValue := "ABCDEF", duration := 72, clientCost := none }
        extOk "uid1" 0 sampleState).resp.isSuccess = true ∧
      (postUids { userId := "owner1", isOwner := true }
        { userId := "u2", uidValue := "ABCDEF", duration := 72, clientCost := none }
        extOk "uid1" 0 sampleState).state.activity
      = [{ userId := "u2", action := "create_uid", details := "Created UID ABCDEF" }] ∧
      ("u2" == "owner1") = false) ∧
    ((patchUidStatus { userId := "owner1", isOwner := true } "uidX" "expired"
        sampleState).resp = StatusResp.success ∧
      (patchUidStatus { userId := "owner1", isOwner := true } "uidX" "expired"
        sampleState).state.activity = []) := by
  exact ⟨⟨by decide, by decide, by decide⟩, by decide, by decide⟩

/-- C8 amended: every successful operation appends exactly one activity
entry with the action tag of the operation; delete, update-value and
renew record the calling session or API-key user as actor, while create
records the target userId (equal to the caller except when an owner
creates for another user); a status update appends one update_uid entry
with the record owner as actor when the record belongs to the session
user, and appends nothing when an owner updates a record that is not
in the session user list. -/
theorem activity_logging :
    (∀ sess req ext newId now st r nc,
      (postUids sess req ext newId now st).resp = CreateResp.success r nc →
      (postUids sess req ext newId now st).state.activity
        = st.activity ++ [{ userId := req.userId, action := "create_uid",
                            details := "Created UID " ++ req.uidValue }]) ∧
    (∀ sess uidId ext st uid,
      getUid st uidId = some uid →
      (deleteUids sess uidId ext st).resp = DeleteResp.success →
      (deleteUids sess uidId ext st).state.activity
        = st.activity ++ [{ userId := sess.userId, action := "delete_uid",
                            details := "Deleted UID " ++ uid.uidValue }]) ∧
    (∀ sess uidId newRaw ext st ov nv,
      (patchUidValue sess uidId newRaw ext st).resp = ValueResp.success ov nv →
      (patchUidValue sess uidId newRaw ext st).state.activity
        = st.activity ++ [{ userId := sess.userId, action := "update_uid_value",
                            details := "Updated UID from " ++ ov ++ " to " ++ nv }]) ∧
    (∀ sess uidId status st uid,
      (getUserUids st sess.userId).find? (fun u => u.id == uidId) = some uid →
      (patchUidStatus sess uidId status st).state.activity
        = st.activity ++ [{ userId := uid.userId, action := "update_uid",
                            details := "Updated UID " ++ uid.uidValue ++ " status to " ++ status }]) ∧
    (∀ sess uidId status st,
      (getUserUids st sess.userId).find? (fun u => u.id == uidId) = none →
      sess.isOwner = true →
      (patchUidStatus sess uidId status st).state.activity = st.activity) ∧
    (∀ key ref d st uidDoc, 0 < d →
      findApiKeyUid st key ref = some uidDoc →
      (handleRenewUid key ref (some d) st).state.activity
        = st.activity ++ [{ userId := key.userId, action := "renew_uid_api",
                            details := "UID " ++ uidDoc.uidValue ++ " renewed via API" }]) ∧
    (∀ key ref st uidDoc,
      findApiKeyUid st key ref = some uidDoc →
      (handleRemoveUid key ref st).state.activity
        = st.activity ++ [{ userId := key.userId, action := "delete_uid_api",
                            details := "UID " ++ uidDoc.uidValue ++ " deleted via API" }]) := by
  refine ⟨?_, ?_, ?_, ?_, ?_, ?_, ?_⟩
  · intro sess req ext newId now st r nc h
    obtain ⟨_, _, _, _, hstate, _, _⟩ := postUids_success_spec sess req ext newId now st r nc h
    rw [hstate]
    rfl
  · intro sess uidId ext st uid hg h
    obtain ⟨uid2, hg2, _, hstate, _⟩ := deleteUids_success_spec sess uidId ext st h
    rw [hg] at hg2
    cases hg2
    rw [hstate]
    rfl
  · intro sess uidId newRaw ext st ov nv h
    obtain ⟨hnv, uid, hg, hov, _, hstate, _⟩ :=
      patchUidValue_success_spec sess uidId newRaw ext st ov nv h
    subst hnv
    subst hov
    rw [hstate]
    rfl
  · intro sess uidId status st uid hfind
    unfold patchUidStatus
    rw [hfind]
    rfl
  · intro sess uidId status st hfind hown
    unfold patchUidStatus
    rw [hfind]
    dsimp only
    rw [if_neg (by simp [hown])]
    rfl
  · intro key ref d st uidDoc hd hf
    rw [handleRenewUid_spec key ref d st uidDoc hd hf]
    rfl
  · intro key ref st uidDoc hf
    rw [handleRemoveUid_spec key ref st uidDoc hf]
    rfl

/-- C8 witness: the delete, status-update and renew logging parts
applied on the sample store. -/
theorem activity_logging_witness :
    (deleteUids { userId := "u2", isOwner := false } "uidX" extOk sampleState).state.activity
      = sampleState.activity
        ++ [{ userId := "u2", action := "delete_uid", details := "Deleted UID ABC123" }] ∧
    (patchUidStatus { userId := "u2", isOwner := false } "uidX" "expired"
        sampleState).state.activity
      = sampleState.activity
        ++ [{ userId := "u2", action := "update_uid",
              details := "Updated UID ABC123 status to expired" }] ∧
    (handleRenewUid keyOne { uid_id := none, uid := some "XYZ999" } (some 7)
        sampleState).state.activity
      = sampleState.activity
        ++ [{ userId := "u2", action := "renew_uid_api",
              details := "UID XYZ999 renewed via API" }] := by
  refine ⟨?_, ?_, ?_⟩
  · exact activity_logging.2.1 { userId := "u2", isOwner := false } "uidX" extOk
      sampleState uidBob (by decide) (by decide)
  · exact activity_logging.2.2.2.1 { userId := "u2", isOwner := false } "uidX"
      "expired" sampleState uidBob (by decide)
  · exact activity_logging.2.2.2.2.2.1 keyOne { uid_id := none, uid := some "XYZ999" }
      7 sampleState uidApi (by decide) (by decide)

/-- C4 witness: a delete of uidX against a failing external service
leaves the sample store unchanged, and the ordering part applied where
the record disappears under an accepting service. -/
theorem delete_ordering_witness :
    (deleteUids { userId := "u2", isOwner := false } "uidX"
        (fun _ => Except.error { message := "remote failure" }) sampleState).state
      = sampleState ∧
    extOk (clientDeleteUIDCall "ABC123") = Except.ok () := by
  constructor
  · exact (delete_external_failure_retains_record.1 { userId := "u2", isOwner := false }
      "uidX" { message := "remote failure" } sampleState).1
  · exact delete_external_failure_retains_record.2 { userId := "u2", isOwner := false }
      "uidX" extOk sampleState uidBob (by decide) (by decide)

/-- C5 witness: the composite rename applied where the delete sub-call
fails (only the delete call is issued), where it succeeds, and a
concrete rename whose free-create sub-call fails, leaving the sample
store unchanged. -/
theorem rename_ordering_witness :
    clientUpdateUID extDeleteFail "ABC123" "XYZ777"
      = (Except.error { message := "remote failure" }, [clientDeleteUIDCall "ABC123"]) ∧
    clientUpdateUID extOk "ABC123" "XYZ777"
      = (extOk (clientCreateUIDFreeCall "XYZ777"),
         [clientDeleteUIDCall "ABC123", clientCreateUIDFreeCall "XYZ777"]) ∧
    (patchUidValue { userId := "u2", isOwner := false } "uidX" "XYZ777"
        extFreeCreateFail sampleState).state = sampleState := by
  refine ⟨?_, ?_, ?_⟩
  · exact rename_external_failure_semantics.1 extDeleteFail "ABC123" "XYZ777"
      { message := "remote failure" } rfl
  · exact rename_external_failure_semantics.2.1 extOk "ABC123" "XYZ777" rfl
  · exact rename_external_failure_semantics.2.2 { userId := "u2", isOwner := false }
      "uidX" "XYZ777" extFreeCreateFail sampleState "remote failure" (by decide)

end Nbypass
